import Mathlib

/-!
Shallow embedding of the nwc-otm core (src/index.ts): per-client balances,
the pending-invoice table, the wallet-method handlers (`pay_invoice`,
`make_invoice`, `lookup_invoice`), the `payment_received` notification
handler and `prunePending`.

JS `number` values used as integers are modelled as `Int`; optional string
fields as `Option String`, with JS truthiness (`undefined` and `""` falsy)
made explicit.  The upstream wallet is a boundary: its outcome is a
parameter of each handler (`Bool` success flag, or an `Option Transaction`
result).
-/

namespace NwcOtm

/-- A transaction record as used by the source (`Transaction` from
applesauce-wallet-connect): optional matching keys, amount, state and
expiry.  Fields not read by the core are omitted. -/
structure Transaction where
  payment_hash : Option String := none
  invoice : Option String := none
  description_hash : Option String := none
  amount : Int := 0
  txState : Option String := none
  expires_at : Option Int := none
deriving DecidableEq, Repr

/-- An entry of the pending table: `{ ...transaction, owner: clientPubkey }`
(src/index.ts line 312). -/
structure PendingTx extends Transaction where
  owner : String
deriving DecidableEq, Repr

/-- A `payment_received` notification as read by the handler
(src/index.ts lines 197-214): its `type` and the three matching keys. -/
structure Notification where
  ntype : String
  payment_hash : Option String := none
  invoice : Option String := none
  description_hash : Option String := none
deriving DecidableEq, Repr

/-- Parameters of a `pay_invoice` request as read by the handler
(src/index.ts lines 287-294). -/
structure PayParams where
  invoice : Option String := none
  amount : Option Int := none
deriving DecidableEq, Repr

/-- The `balances` object (src/index.ts line 119): client pubkey → number,
modelled as an association list preserving JS object insertion order. -/
abbrev Balances := List (String × Int)

/-- Reads `balances[c] || 0`: absent keys read as 0 (a stored 0 is falsy and also
yields 0, so defaulting to 0 is exact). -/
def getBal : Balances → String → Int
  | [], _ => 0
  | (k, w) :: rest, c => if k = c then w else getBal rest c

/-- Tests `c in balances`: key presence, regardless of the stored value. -/
def hasKey : Balances → String → Bool
  | [], _ => false
  | (k, _) :: rest, c => k = c || hasKey rest c

/-- Writes `balances[c] = v`: replace the value if the key is present, else append
the key (JS object assignment). -/
def setBal : Balances → String → Int → Balances
  | [], c, v => [(c, v)]
  | (k, w) :: rest, c, v =>
    if k = c then (k, v) :: rest else (k, w) :: setBal rest c v

/-- The mutable state the core owns: the `balances` object and the
`pending` array. -/
structure ServerState where
  balances : Balances
  pending : List PendingTx
deriving DecidableEq, Repr

/-- JS truthiness of an optional string: `undefined` and `""` are falsy. -/
def truthyStr : Option String → Bool
  | none => false
  | some s => !(s == "")

/-- The matching predicate used verbatim in both reconciliation paths
(src/index.ts lines 203-214 and 331-340):
`(p.payment_hash && s.payment_hash && p.payment_hash === s.payment_hash) ||
 (p.invoice && s.invoice && p.invoice === s.invoice) ||
 (p.description_hash && s.description_hash && p.description_hash === s.description_hash)`. -/
def matchKeys (p : PendingTx) (ph inv dh : Option String) : Bool :=
  (truthyStr p.payment_hash && truthyStr ph && (p.payment_hash == ph)) ||
  (truthyStr p.invoice && truthyStr inv && (p.invoice == inv)) ||
  (truthyStr p.description_hash && truthyStr dh && (p.description_hash == dh))

/-- Models `pending = pending.filter((p) => p !== existing)` where `existing` is the
object returned by `pending.find(...)`: since every array element is a
distinct object, this removes exactly the first element satisfying the
predicate. -/
def removeFirst : List PendingTx → (PendingTx → Bool) → List PendingTx
  | [], _ => []
  | x :: xs, pred => if pred x then xs else x :: removeFirst xs pred

/-- The `payment_received` notification handler (src/index.ts lines 197-232):
ignore non-incoming notifications; find the first pending entry matching on
any key; if found, credit `balances[existing.owner] =
(balances[existing.owner] || 0) + existing.amount` and remove the entry.
No check of the entry's own `state` field is made on this path. -/
def onPaymentReceived (st : ServerState) (n : Notification) : ServerState :=
  if n.ntype == "incoming" then
    match st.pending.find? (fun p => matchKeys p n.payment_hash n.invoice n.description_hash) with
    | some existing =>
      { balances := setBal st.balances existing.owner
          (getBal st.balances existing.owner + existing.amount),
        pending := removeFirst st.pending
          (fun p => matchKeys p n.payment_hash n.invoice n.description_hash) }
    | none => st
  else st

/-- Outcome of a `pay_invoice` call: rejected locally, upstream threw, or
upstream succeeded. -/
inductive PayOutcome where
  | insufficientBalance
  | upstreamFailure
  | success
deriving DecidableEq, Repr

/-- Returns `true` exactly when the upstream wallet adapter was called: only the
`insufficientBalance` rejection happens before `upstream.payInvoice`. -/
def upstreamCalled : PayOutcome → Bool
  | .insufficientBalance => false
  | _ => true

/-- The `pay_invoice` handler (src/index.ts lines 287-301):
read `clientBalance = balances[c] || 0` and `amount = params.amount || 0`;
throw "Insufficient balance" if `amount > clientBalance`; otherwise await
`upstream.payInvoice` (outcome given by `upstreamOk`); on success write
`balances[c] = clientBalance - amount`; an upstream throw propagates before
any balance write. -/
def pay_invoice (st : ServerState) (c : String) (params : PayParams)
    (upstreamOk : Bool) : PayOutcome × ServerState :=
  let clientBalance := getBal st.balances c
  let amount := params.amount.getD 0
  if clientBalance < amount then (.insufficientBalance, st)
  else if upstreamOk then
    (.success, { st with balances := setBal st.balances c (clientBalance - amount) })
  else (.upstreamFailure, st)

/-- The `make_invoice` handler (src/index.ts lines 302-316): await
`upstream.makeInvoice` (result given by the `Option Transaction` argument;
`none` models an upstream throw, which propagates before the push); on
success push `{ ...transaction, owner: clientPubkey }` onto `pending`. -/
def make_invoice (st : ServerState) (c : String) (upstreamTx : Option Transaction) :
    ServerState × Option Transaction :=
  match upstreamTx with
  | none => (st, none)
  | some tx =>
    ({ st with pending := st.pending ++ [{ toTransaction := tx, owner := c }] }, some tx)

/-- The state effect of the `lookup_invoice` handler (src/index.ts lines
317-360), with `check` the transaction returned by `upstream.lookupInvoice`:
if `check.state === "settled"`, find the first matching pending entry; if it
exists and `existing?.state === "pending"`, credit the owner by
`existing.amount` and remove the entry; otherwise no state change. -/
def lookup_invoice (st : ServerState) (check : Transaction) : ServerState :=
  if check.txState == some "settled" then
    match st.pending.find? (fun p => matchKeys p check.payment_hash check.invoice check.description_hash) with
    | some existing =>
      if existing.txState == some "pending" then
        { balances := setBal st.balances existing.owner
            (getBal st.balances existing.owner + existing.amount),
          pending := removeFirst st.pending
            (fun p => matchKeys p check.payment_hash check.invoice check.description_hash) }
      else st
    | none => st
  else st

/-- The filter condition of `prunePending` (src/index.ts line 171):
`p.expires_at && p.expires_at > now` — an absent or zero `expires_at` is
falsy, so only entries with a present, non-zero expiry strictly in the
future are kept. -/
def keepEntry (now : Int) (p : PendingTx) : Bool :=
  match p.expires_at with
  | none => false
  | some e => !(e == 0) && now < e

/-- Embeds `prunePending` (src/index.ts lines 169-173): filter the pending table,
touching no balance. -/
def prunePending (st : ServerState) (now : Int) : ServerState :=
  { st with pending := st.pending.filter (keepEntry now) }

/-- Balance zero-initialisation on first contact (src/index.ts lines
264-268): `if (!(clientPubkey in balances)) balances[clientPubkey] = 0`. -/
def initBalance (b : Balances) (c : String) : Balances :=
  if hasKey b c then b else setBal b c 0

/-- All persisted balances are non-negative (decidable form of the ledger
invariant). -/
def balsNonneg (b : Balances) : Bool :=
  b.all (fun kv => decide (0 ≤ kv.2))

/-- All pending amounts are non-negative. -/
def pendNonneg (l : List PendingTx) : Bool :=
  l.all (fun p => decide (0 ≤ p.amount))

/-!
Interleaving model of two concurrent `pay_invoice` requests for the same
client.  The handler body (src/index.ts lines 287-301) has exactly one
suspension point — the `await upstream.payInvoice(...)` between the balance
pre-check and the balance write — and the write uses the `clientBalance`
local captured before the await.  Each request is therefore two atomic
phases: `check` (read `clientBalance`, reject or capture it and start the
upstream call) and `settle` (the await returns; on success write
`balances[c] = clientBalance - amount`).  The Bun/JS event loop may run the
phases of the two requests in any order that keeps each request's `check`
before its `settle`; no per-client lock or queue exists in the source. -/

/-- Joint state of two in-flight `pay_invoice` requests for one client:
the shared balance entry, each request's captured `clientBalance` local
(`none` until its pre-check has run), and each outcome (`none` while the
request is unfinished). -/
structure ConcPayState where
  bal : Int
  cap1 : Option Int
  cap2 : Option Int
  out1 : Option PayOutcome
  out2 : Option PayOutcome
deriving DecidableEq, Repr

/-- One atomic phase of one of the two requests. -/
inductive ConcStep where
  | check1
  | check2
  | settle1
  | settle2
deriving DecidableEq, Repr

/-- Small-step semantics of the two concurrent `pay_invoice` bodies with
amounts `a1`, `a2` and upstream outcomes `ok1`, `ok2`; a phase that is not
enabled (already run, or its request already finished) leaves the state
unchanged. -/
def concStep (a1 a2 : Int) (ok1 ok2 : Bool) (s : ConcPayState) :
    ConcStep → ConcPayState
  | .check1 =>
    if s.cap1.isSome || s.out1.isSome then s
    else if s.bal < a1 then { s with out1 := some .insufficientBalance }
    else { s with cap1 := some s.bal }
  | .check2 =>
    if s.cap2.isSome || s.out2.isSome then s
    else if s.bal < a2 then { s with out2 := some .insufficientBalance }
    else { s with cap2 := some s.bal }
  | .settle1 =>
    match s.cap1, s.out1 with
    | some cb, none =>
      if ok1 then { s with bal := cb - a1, out1 := some .success }
      else { s with out1 := some .upstreamFailure }
    | _, _ => s
  | .settle2 =>
    match s.cap2, s.out2 with
    | some cb, none =>
      if ok2 then { s with bal := cb - a2, out2 := some .success }
      else { s with out2 := some .upstreamFailure }
    | _, _ => s

/-- Run a schedule of phases from a starting state. -/
def concRun (a1 a2 : Int) (ok1 ok2 : Bool) (sched : List ConcStep)
    (s : ConcPayState) : ConcPayState :=
  sched.foldl (concStep a1 a2 ok1 ok2) s

/-- Modelled from the spec: the matching predicate as the spec states it —
"payment hash equal and both present", and likewise for invoice string and
description hash — where "present" is plain field presence (`isSome`),
with no further condition.  Used only to compare the spec's wording with
`matchKeys`, the predicate the source actually evaluates. -/
def matchKeysSpec (p : PendingTx) (ph inv dh : Option String) : Bool :=
  (p.payment_hash.isSome && ph.isSome && (p.payment_hash == ph)) ||
  (p.invoice.isSome && inv.isSome && (p.invoice == inv)) ||
  (p.description_hash.isSome && dh.isSome && (p.description_hash == dh))

/-! ### Concrete instances used by witnesses and counterexamples -/

/-- A pending entry owned by client "A": amount 5, payment hash "h",
state pending. -/
def samplePending : PendingTx :=
  ⟨⟨some "h", none, none, 5, some "pending", none⟩, "A"⟩

/-- A pending entry owned by client "A" whose state is already settled. -/
def settledPending : PendingTx :=
  ⟨⟨some "h", none, none, 5, some "settled", none⟩, "A"⟩

/-- A pending entry owned by client "A" carrying a negative amount. -/
def negativePending : PendingTx :=
  ⟨⟨some "h", none, none, -5, some "pending", none⟩, "A"⟩

/-- An incoming settlement notification with payment hash "h". -/
def sampleNotif : Notification := ⟨"incoming", some "h", none, none⟩

/-- A settled lookup result with payment hash "h". -/
def sampleCheck : Transaction := ⟨some "h", none, none, 5, some "settled", none⟩

/-! ### Helper lemmas about the balance store -/

theorem getBal_setBal_self : ∀ (b : Balances) (c : String) (v : Int),
    getBal (setBal b c v) c = v
  | [], c, v => by simp [setBal, getBal]
  | (k, w) :: rest, c, v => by
    by_cases h : k = c
    · simp [setBal, getBal, h]
    · simp [setBal, getBal, h, getBal_setBal_self rest c v]

theorem getBal_setBal_ne : ∀ (b : Balances) (c : String) (v : Int) (d : String),
    c ≠ d → getBal (setBal b c v) d = getBal b d
  | [], c, v, d, h => by simp [setBal, getBal, h]
  | (k, w) :: rest, c, v, d, h => by
    by_cases hk : k = c
    · subst hk; simp [setBal, getBal, h]
    · simp only [setBal, if_neg hk]
      by_cases hd : k = d
      · simp [getBal, hd]
      · simp [getBal, hd, getBal_setBal_ne rest c v d h]

theorem balsNonneg_setBal : ∀ (b : Balances) (c : String) (v : Int),
    balsNonneg b = true → 0 ≤ v → balsNonneg (setBal b c v) = true
  | [], c, v, _, hv => by simp [setBal, balsNonneg, hv]
  | (k, w) :: rest, c, v, hb, hv => by
    simp only [balsNonneg, List.all_cons, Bool.and_eq_true, decide_eq_true_eq] at hb
    by_cases h : k = c
    · simp only [setBal, if_pos h, balsNonneg, List.all_cons, Bool.and_eq_true,
        decide_eq_true_eq]
      exact ⟨hv, hb.2⟩
    · simp only [setBal, if_neg h, balsNonneg, List.all_cons, Bool.and_eq_true,
        decide_eq_true_eq]
      exact ⟨hb.1, balsNonneg_setBal rest c v hb.2 hv⟩

theorem getBal_nonneg : ∀ (b : Balances) (c : String),
    balsNonneg b = true → 0 ≤ getBal b c
  | [], _, _ => le_refl 0
  | (k, w) :: rest, c, hb => by
    simp only [balsNonneg, List.all_cons, Bool.and_eq_true, decide_eq_true_eq] at hb
    by_cases h : k = c
    · simp [getBal, h, hb.1]
    · simp only [getBal, if_neg h]
      exact getBal_nonneg rest c hb.2

theorem pendNonneg_amount {l : List PendingTx} {p : PendingTx}
    (hl : pendNonneg l = true) (hp : p ∈ l) : 0 ≤ p.amount := by
  simp only [pendNonneg, List.all_eq_true, decide_eq_true_eq] at hl
  exact hl p hp

/-- Lemma: `removeFirst` never invents entries: its result is a sublist shape we
only need pointwise — every element of the result was in the input. -/
theorem removeFirst_subset : ∀ (l : List PendingTx) (pred : PendingTx → Bool)
    (p : PendingTx), p ∈ removeFirst l pred → p ∈ l
  | [], _, p, h => by simp [removeFirst] at h
  | x :: xs, pred, p, h => by
    by_cases hx : pred x = true
    · simp only [removeFirst, if_pos hx] at h
      exact List.mem_cons_of_mem x h
    · simp only [removeFirst, if_neg hx, List.mem_cons] at h
      rcases h with h | h
      · exact h ▸ List.mem_cons_self x xs
      · exact List.mem_cons_of_mem x (removeFirst_subset xs pred p h)

/-! ### Claim theorems -/

/-- C1: for a `pay_invoice` request of amount A, if A exceeds balance(C) the
request is rejected with the insufficient-balance error before any upstream
call and the state is unchanged; otherwise the upstream adapter is called,
a successful upstream call reduces balance(C) by exactly A, a failed one
leaves the whole state unchanged, and (for A ≠ 0) the balance is reduced by
exactly A if and only if the upstream call succeeded. -/
theorem pay_invoice_balance_discipline (st : ServerState) (c : String)
    (params : PayParams) (upstreamOk : Bool) (A : Int)
    (hA : params.amount = some A) :
    (getBal st.balances c < A →
      pay_invoice st c params upstreamOk = (.insufficientBalance, st)) ∧
    (A ≤ getBal st.balances c →
      upstreamCalled (pay_invoice st c params upstreamOk).1 = true ∧
      (upstreamOk = true →
        (pay_invoice st c params upstreamOk).1 = .success ∧
        getBal (pay_invoice st c params upstreamOk).2.balances c =
          getBal st.balances c - A) ∧
      (upstreamOk = false →
        pay_invoice st c params upstreamOk = (.upstreamFailure, st)) ∧
      (A ≠ 0 →
        (getBal (pay_invoice st c params upstreamOk).2.balances c =
            getBal st.balances c - A ↔ upstreamOk = true))) := by
  constructor
  · intro hlt
    simp [pay_invoice, hA, hlt]
  · intro hle
    have hnlt : ¬(getBal st.balances c < A) := not_lt.mpr hle
    cases upstreamOk with
    | true =>
      simp [pay_invoice, hA, hnlt, upstreamCalled, getBal_setBal_self]
    | false =>
      have hpay : pay_invoice st c params false = (.upstreamFailure, st) := by
        simp [pay_invoice, hA, hnlt]
      rw [hpay]
      refine ⟨rfl, fun h => absurd h Bool.false_ne_true, fun _ => rfl, fun hA0 => ?_⟩
      simp only [Bool.false_eq_true, iff_false]
      intro heq
      exact hA0 (by linarith)

/-- Witness for C1 at balance 10 and amount 4 with a succeeding upstream
call: the outcome is success and the balance drops to 10 - 4. -/
theorem pay_invoice_balance_discipline_witness :
    (pay_invoice (ServerState.mk [("alice", 10)] []) "alice"
        (PayParams.mk none (some 4)) true).1 = .success ∧
    getBal (pay_invoice (ServerState.mk [("alice", 10)] []) "alice"
        (PayParams.mk none (some 4)) true).2.balances "alice" =
      getBal [("alice", 10)] "alice" - 4 :=
  ((pay_invoice_balance_discipline (ServerState.mk [("alice", 10)] []) "alice"
      (PayParams.mk none (some 4)) true 4 rfl).2 (by decide)).2.1 rfl

/-- C2 evidence: the `pay_invoice` body suspends at the upstream `await`
between the balance pre-check and the balance write, and nothing serializes
the two requests; under the schedule check1, check2, settle1, settle2, two
concurrent requests of amount 60 against balance 100 BOTH read balance 100,
both pass the pre-check, both succeed, and the final balance is 40 — the
upstream wallet paid 120 while the client was debited 60. -/
theorem concurrent_double_spend :
    concRun 60 60 true true [.check1, .check2, .settle1, .settle2]
        (ConcPayState.mk 100 none none none none) =
      ConcPayState.mk 40 (some 100) (some 100) (some .success) (some .success) := by
  decide

/-- C6: pruning at time `now` removes every pending entry whose expiry has
passed (no condition on its settlement state), and the balances object is
untouched. -/
theorem prune_removes_expired (st : ServerState) (now : Int) (p : PendingTx)
    (e : Int) (he : p.expires_at = some e) (hpast : e ≤ now) :
    p ∉ (prunePending st now).pending ∧
      (prunePending st now).balances = st.balances := by
  refine ⟨fun hmem => ?_, rfl⟩
  have hkeep := (List.mem_filter.mp hmem).2
  rw [keepEntry, he] at hkeep
  simp only [Bool.and_eq_true, decide_eq_true_eq] at hkeep
  exact absurd hkeep.2 (not_lt.mpr hpast)

/-- Witness for C6: an entry expiring at 5 pruned at time 10; the balances
are returned unchanged. -/
theorem prune_removes_expired_witness :
    (prunePending (ServerState.mk [("A", 7)]
        [PendingTx.mk (Transaction.mk none none none 5 none (some 5)) "A"]) 10).balances =
      [("A", 7)] :=
  (prune_removes_expired (ServerState.mk [("A", 7)]
      [PendingTx.mk (Transaction.mk none none none 5 none (some 5)) "A"]) 10
      (PendingTx.mk (Transaction.mk none none none 5 none (some 5)) "A") 5 rfl
      (by decide)).2

/-- C7: when the upstream invoice creation succeeds, `make_invoice` appends
exactly one new pending entry, that entry is owned by the requesting client,
and the balances are untouched; when the upstream call fails, the state is
returned unchanged with no result. -/
theorem make_invoice_pending (st : ServerState) (c : String) (tx : Transaction) :
    (make_invoice st c (some tx)).1.pending =
      st.pending ++ [{ toTransaction := tx, owner := c }] ∧
    ((make_invoice st c (some tx)).1.pending).length = st.pending.length + 1 ∧
    ({ toTransaction := tx, owner := c } : PendingTx).owner = c ∧
    (make_invoice st c (some tx)).1.balances = st.balances ∧
    make_invoice st c none = (st, none) :=
  ⟨rfl, by simp [make_invoice], rfl, rfl, rfl⟩

/-- C10: with a non-negative balance, a `pay_invoice` request whose amount
is absent or zero passes the pre-check (the amount defaults to 0), the
upstream adapter is called, and a successful upstream call leaves the
client's balance unchanged. -/
theorem pay_invoice_zero_amount (st : ServerState) (c : String)
    (params : PayParams) (upstreamOk : Bool)
    (hamt : params.amount = none ∨ params.amount = some 0)
    (hbal : 0 ≤ getBal st.balances c) :
    upstreamCalled (pay_invoice st c params upstreamOk).1 = true ∧
    (upstreamOk = true →
      (pay_invoice st c params upstreamOk).1 = .success ∧
      getBal (pay_invoice st c params upstreamOk).2.balances c =
        getBal st.balances c) := by
  have h0 : params.amount.getD 0 = 0 := by rcases hamt with h | h <;> simp [h]
  have hnlt : ¬(getBal st.balances c < 0) := not_lt.mpr hbal
  cases upstreamOk with
  | true =>
    simp [pay_invoice, h0, hnlt, upstreamCalled, getBal_setBal_self]
  | false =>
    simp [pay_invoice, h0, hnlt, upstreamCalled]

/-- Witness for C10: a client with no balance entry (balance 0) paying with
an absent amount: the upstream is called and the balance stays 0. -/
theorem pay_invoice_zero_amount_witness :
    upstreamCalled (pay_invoice (ServerState.mk [] []) "A"
        (PayParams.mk none none) true).1 = true ∧
    ((pay_invoice (ServerState.mk [] []) "A" (PayParams.mk none none) true).1 =
        .success ∧
      getBal (pay_invoice (ServerState.mk [] []) "A"
          (PayParams.mk none none) true).2.balances "A" =
        getBal ([] : Balances) "A") :=
  have h := pay_invoice_zero_amount (ServerState.mk [] []) "A"
    (PayParams.mk none none) true (Or.inl rfl) (by decide)
  ⟨h.1, h.2 rfl⟩

/-- C3 counterexample: with two pending entries sharing payment hash "h"
(each amount 5, owner "A"), delivering the same settlement notification
twice credits twice — the second delivery matches the remaining entry, so
it is not a no-op and balance(A) ends at 10, not 5. -/
theorem settlement_duplicate_cex :
    onPaymentReceived (onPaymentReceived
        (ServerState.mk [("A", 0)] [samplePending, samplePending]) sampleNotif)
        sampleNotif ≠
      onPaymentReceived (ServerState.mk [("A", 0)] [samplePending, samplePending])
        sampleNotif ∧
    getBal (onPaymentReceived (onPaymentReceived
        (ServerState.mk [("A", 0)] [samplePending, samplePending]) sampleNotif)
        sampleNotif).balances "A" = 10 := by
  decide

/-- C3 (amended): an incoming settlement notification that matches pending
entry `ex` credits `ex.owner` by exactly `ex.amount` and removes the first
matching entry; delivering the same event again is a no-op provided no
remaining pending entry matches the event's keys. -/
theorem settlement_credit_once (st : ServerState) (n : Notification)
    (ex : PendingTx) (htype : n.ntype = "incoming")
    (hfind : st.pending.find?
        (fun p => matchKeys p n.payment_hash n.invoice n.description_hash) =
      some ex) :
    getBal (onPaymentReceived st n).balances ex.owner =
      getBal st.balances ex.owner + ex.amount ∧
    (onPaymentReceived st n).pending =
      removeFirst st.pending
        (fun p => matchKeys p n.payment_hash n.invoice n.description_hash) ∧
    ((onPaymentReceived st n).pending.find?
          (fun p => matchKeys p n.payment_hash n.invoice n.description_hash) =
        none →
      onPaymentReceived (onPaymentReceived st n) n = onPaymentReceived st n) := by
  have hunf : onPaymentReceived st n =
      ServerState.mk
        (setBal st.balances ex.owner (getBal st.balances ex.owner + ex.amount))
        (removeFirst st.pending
          (fun p => matchKeys p n.payment_hash n.invoice n.description_hash)) := by
    simp [onPaymentReceived, htype, hfind]
  refine ⟨?_, ?_, ?_⟩
  · rw [hunf]
    exact getBal_setBal_self _ _ _
  · rw [hunf]
  · intro hnone
    conv_lhs => rw [onPaymentReceived]
    rw [hunf] at hnone ⊢
    simp [htype, hnone]

/-- Witness for C3 at a single matching entry: the owner is credited by the
entry's amount and the second delivery is a no-op. -/
theorem settlement_credit_once_witness :
    getBal (onPaymentReceived (ServerState.mk [("A", 0)] [samplePending])
        sampleNotif).balances "A" = getBal [("A", 0)] "A" + 5 ∧
    onPaymentReceived (onPaymentReceived
        (ServerState.mk [("A", 0)] [samplePending]) sampleNotif) sampleNotif =
      onPaymentReceived (ServerState.mk [("A", 0)] [samplePending]) sampleNotif := by
  have h := settlement_credit_once (ServerState.mk [("A", 0)] [samplePending])
    sampleNotif samplePending rfl (by decide)
  exact ⟨h.1, h.2.2 (by decide)⟩

/-- C4 counterexample: a matched pending entry whose state is "settled", not
"pending": the lookup path leaves the state unchanged, but the notification
path credits it anyway — so the two reconciliation paths are not identical
and a matched non-pending entry IS credited. -/
theorem reconcile_paths_cex :
    lookup_invoice (ServerState.mk [("A", 0)] [settledPending]) sampleCheck =
      ServerState.mk [("A", 0)] [settledPending] ∧
    getBal (onPaymentReceived (ServerState.mk [("A", 0)] [settledPending])
        sampleNotif).balances "A" = 5 ∧
    (onPaymentReceived (ServerState.mk [("A", 0)] [settledPending])
        sampleNotif).pending = [] ∧
    onPaymentReceived (ServerState.mk [("A", 0)] [settledPending]) sampleNotif ≠
      lookup_invoice (ServerState.mk [("A", 0)] [settledPending]) sampleCheck := by
  decide

/-- C4 (amended): both reconciliation paths evaluate the same matching
predicate on the same keys and find the same first matching entry; when the
lookup result is settled and the matched entry's state is `pending`, the
lookup path performs exactly the notification path's credit-and-remove; a
matched entry whose state is not `pending` is never credited by the lookup
path but is still credited by the notification path. -/
theorem reconcile_paths (st : ServerState) (check : Transaction)
    (ex : PendingTx)
    (hfind : st.pending.find?
        (fun p => matchKeys p check.payment_hash check.invoice
          check.description_hash) = some ex) :
    (check.txState = some "settled" → ex.txState = some "pending" →
      lookup_invoice st check =
        onPaymentReceived st
          (Notification.mk "incoming" check.payment_hash check.invoice
            check.description_hash)) ∧
    (ex.txState ≠ some "pending" → lookup_invoice st check = st) ∧
    getBal (onPaymentReceived st
        (Notification.mk "incoming" check.payment_hash check.invoice
          check.description_hash)).balances ex.owner =
      getBal st.balances ex.owner + ex.amount := by
  have hnotif : onPaymentReceived st
      (Notification.mk "incoming" check.payment_hash check.invoice
        check.description_hash) =
      ServerState.mk
        (setBal st.balances ex.owner (getBal st.balances ex.owner + ex.amount))
        (removeFirst st.pending
          (fun p => matchKeys p check.payment_hash check.invoice
            check.description_hash)) := by
    simp [onPaymentReceived, hfind]
  refine ⟨?_, ?_, ?_⟩
  · intro hset hpend
    rw [hnotif]
    simp [lookup_invoice, hset, hfind, hpend]
  · intro hne
    by_cases hset : check.txState = some "settled"
    · have : (ex.txState == some "pending") = false := by
        simp [hne]
      simp [lookup_invoice, hset, hfind, this]
    · have : (check.txState == some "settled") = false := by
        simp [hset]
      simp [lookup_invoice, this]
  · rw [hnotif]
    exact getBal_setBal_self _ _ _

/-- Witness for C4 at an entry in state `pending` and a settled lookup: the
two paths produce the same state and the owner is credited by the amount. -/
theorem reconcile_paths_witness :
    lookup_invoice (ServerState.mk [("A", 0)] [samplePending]) sampleCheck =
      onPaymentReceived (ServerState.mk [("A", 0)] [samplePending])
        (Notification.mk "incoming" (some "h") none none) ∧
    getBal (onPaymentReceived (ServerState.mk [("A", 0)] [samplePending])
        (Notification.mk "incoming" (some "h") none none)).balances "A" =
      getBal [("A", 0)] "A" + 5 := by
  have h := reconcile_paths (ServerState.mk [("A", 0)] [samplePending])
    sampleCheck samplePending (by decide)
  exact ⟨h.1 rfl rfl, h.2.2⟩

/-- C9: pruning at time `now` retains exactly the entries whose expiry is
present, non-zero and strictly in the future; in particular an entry with an
absent (or zero) expiry is removed even though it has not expired. -/
theorem prune_retention (st : ServerState) (now : Int) (p : PendingTx) :
    p ∈ (prunePending st now).pending ↔
      (p ∈ st.pending ∧ ∃ e, p.expires_at = some e ∧ e ≠ 0 ∧ now < e) := by
  simp only [prunePending, List.mem_filter]
  constructor
  · rintro ⟨hmem, hkeep⟩
    refine ⟨hmem, ?_⟩
    cases he : p.expires_at with
    | none => rw [keepEntry, he] at hkeep; exact absurd hkeep (by simp)
    | some e =>
      rw [keepEntry, he] at hkeep
      simp only [Bool.and_eq_true, bne_iff_ne, decide_eq_true_eq,
        Bool.not_eq_true', beq_eq_false_iff_ne, ne_eq] at hkeep
      exact ⟨e, rfl, hkeep.1, hkeep.2⟩
  · rintro ⟨hmem, e, he, he0, hnow⟩
    refine ⟨hmem, ?_⟩
    rw [keepEntry, he]
    simp [he0, hnow]

/-- C5 counterexample: from a state whose balances are all non-negative but
whose pending table holds an entry with amount -5, the settlement credit
writes balance(A) = -5 — the balance-writing operations alone do not keep
balances non-negative without also assuming pending amounts non-negative. -/
theorem balances_nonneg_cex :
    balsNonneg ((ServerState.mk [("A", 0)] [negativePending]).balances) = true ∧
    getBal (onPaymentReceived (ServerState.mk [("A", 0)] [negativePending])
        sampleNotif).balances "A" = -5 ∧
    balsNonneg (onPaymentReceived (ServerState.mk [("A", 0)] [negativePending])
        sampleNotif).balances = false := by
  decide

/-- C5 (amended): starting from any state in which all persisted balances
are non-negative and all pending amounts are non-negative, every operation
that writes a balance — the `pay_invoice` deduction, the settlement credit
on either reconciliation path, and the zero-initialisation on first
contact — leaves all balances non-negative. -/
theorem balances_nonneg_preserved (st : ServerState) (c : String)
    (params : PayParams) (upstreamOk : Bool) (n : Notification)
    (check : Transaction) (hb : balsNonneg st.balances = true)
    (hp : pendNonneg st.pending = true) :
    balsNonneg (pay_invoice st c params upstreamOk).2.balances = true ∧
    balsNonneg (onPaymentReceived st n).balances = true ∧
    balsNonneg (lookup_invoice st check).balances = true ∧
    balsNonneg (initBalance st.balances c) = true := by
  refine ⟨?_, ?_, ?_, ?_⟩
  · by_cases hlt : getBal st.balances c < params.amount.getD 0
    · simp [pay_invoice, hlt, hb]
    · cases upstreamOk with
      | true =>
        simp only [pay_invoice, if_neg hlt, if_true]
        exact balsNonneg_setBal st.balances c _ hb
          (sub_nonneg.mpr (not_lt.mp hlt))
      | false => simp [pay_invoice, hlt, hb]
  · by_cases htype : (n.ntype == "incoming") = true
    · cases hfind : st.pending.find?
          (fun p => matchKeys p n.payment_hash n.invoice n.description_hash) with
      | none => simp [onPaymentReceived, htype, hfind, hb]
      | some ex =>
        have hmem := List.mem_of_find?_eq_some hfind
        simp only [onPaymentReceived, htype, if_true, hfind]
        exact balsNonneg_setBal st.balances ex.owner _ hb
          (add_nonneg (getBal_nonneg st.balances ex.owner hb)
            (pendNonneg_amount hp hmem))
    · simp [onPaymentReceived, htype, hb]
  · by_cases hset : (check.txState == some "settled") = true
    · cases hfind : st.pending.find?
          (fun p => matchKeys p check.payment_hash check.invoice
            check.description_hash) with
      | none => simp [lookup_invoice, hset, hfind, hb]
      | some ex =>
        by_cases hpend : (ex.txState == some "pending") = true
        · have hmem := List.mem_of_find?_eq_some hfind
          simp only [lookup_invoice, hset, if_true, hfind, hpend]
          exact balsNonneg_setBal st.balances ex.owner _ hb
            (add_nonneg (getBal_nonneg st.balances ex.owner hb)
              (pendNonneg_amount hp hmem))
        · simp [lookup_invoice, hset, hfind, hpend, hb]
    · simp [lookup_invoice, hset, hb]
  · by_cases hk : hasKey st.balances c = true
    · simp [initBalance, hk, hb]
    · simp only [initBalance, hk, if_false]
      exact balsNonneg_setBal st.balances c 0 hb le_rfl

/-- Witness for C5 at a one-client state with balance 2 and one pending
entry of amount 5: all four operations keep the balances non-negative. -/
theorem balances_nonneg_preserved_witness :
    balsNonneg (pay_invoice (ServerState.mk [("A", 2)] [samplePending]) "A"
        (PayParams.mk none (some 1)) true).2.balances = true ∧
    balsNonneg (onPaymentReceived (ServerState.mk [("A", 2)] [samplePending])
        sampleNotif).balances = true ∧
    balsNonneg (lookup_invoice (ServerState.mk [("A", 2)] [samplePending])
        sampleCheck).balances = true ∧
    balsNonneg (initBalance [("A", 2)] "B") = true :=
  balances_nonneg_preserved (ServerState.mk [("A", 2)] [samplePending]) "B"
    (PayParams.mk none (some 1)) true sampleNotif sampleCheck
    (by decide) (by decide)

/-- C8 counterexample: both payment hashes are present and equal but empty;
the spec's predicate ("present and equal") matches, the predicate the code
evaluates does not, because JS truthiness rejects the empty string. -/
theorem match_predicate_cex :
    matchKeysSpec (PendingTx.mk (Transaction.mk (some "") none none 0 none none) "A")
        (some "") none none = true ∧
    matchKeys (PendingTx.mk (Transaction.mk (some "") none none 0 none none) "A")
        (some "") none none = false := by
  decide

/-- C8 (amended): the matching predicate holds iff for at least one of the
three keys both sides carry the same present, non-empty string — a match on
any single shared non-empty key suffices. -/
theorem match_predicate_characterisation (p : PendingTx)
    (ph inv dh : Option String) :
    matchKeys p ph inv dh = true ↔
      ((∃ s, p.payment_hash = some s ∧ ph = some s ∧ s ≠ "") ∨
       (∃ s, p.invoice = some s ∧ inv = some s ∧ s ≠ "") ∨
       (∃ s, p.description_hash = some s ∧ dh = some s ∧ s ≠ "")) := by
  have key : ∀ (a b : Option String),
      (truthyStr a && truthyStr b && (a == b)) = true ↔
        ∃ s, a = some s ∧ b = some s ∧ s ≠ "" := by
    intro a b
    cases a with
    | none => simp [truthyStr]
    | some s =>
      cases b with
      | none => simp [truthyStr]
      | some t =>
        simp only [truthyStr, Bool.and_eq_true, Bool.not_eq_true',
          beq_eq_false_iff_ne, ne_eq, beq_iff_eq, Option.some.injEq]
        constructor
        · rintro ⟨⟨hs, ht⟩, hst⟩
          exact ⟨s, rfl, hst.symm ▸ rfl, hs⟩
        · rintro ⟨u, hu, htu, hune⟩
          subst hu
          subst htu
          exact ⟨⟨hune, hune⟩, rfl⟩
  rw [matchKeys]
  simp only [Bool.or_eq_true, key]
  rw [or_assoc]

/-- Witness demonstrating the amended C8 on a concrete non-empty shared key:
a pending entry and event sharing payment hash "h" match. -/
theorem match_predicate_characterisation_witness :
    matchKeys samplePending (some "h") none none = true :=
  (match_predicate_characterisation samplePending (some "h") none none).mpr
    (Or.inl ⟨"h", rfl, rfl, by decide⟩)

end NwcOtm
